import Mathlib

/-!
Verification development for the Tg_save_post_bot repository.

The definitions below are a shallow embedding of the pure computations and
of the effectful control flow of `src/bot/driver_manager.py` and
`src/bot/main.py`.  Effectful sub-calls (subprocess probes, network fetches,
archive extraction, hashing, session teardown) are modelled by environment
records whose fields hold the outcome each call would produce; the embedded
functions then replay the exact branching of the Python source over those
outcomes.  Byte strings are `List Nat`, file contents at a path are
`Option (List Nat)` (absent or fully present), and Python exceptions are
`Except` errors.
-/

deriving instance DecidableEq for Except

namespace TgSaveBot

/-- Bytes of a file or download, each entry one byte. -/
abbrev Bin := List Nat

/-! ## Image post-processor (`_remove_green_pixels_sync`, src/bot/main.py) -/

/-- One RGBA pixel, channels in 0..255. -/
structure Pixel where
  r : Nat
  g : Nat
  b : Nat
  a : Nat
deriving DecidableEq, Repr

/-- Chroma-key membership test shared by both branches of
`_remove_green_pixels_sync`: the numpy branch computes
`(r >= 30) & (r <= 90) & (g >= 220) & (b <= 50) & (g > r + 20) & (g > b + 20)`
and the per-pixel branch tests
`30 <= r <= 90 and g >= 220 and b <= 50 and g > r + 20 and g > b + 20`. -/
def green_mask (p : Pixel) : Bool :=
  decide (30 ≤ p.r) && decide (p.r ≤ 90) && decide (220 ≤ p.g) &&
    decide (p.b ≤ 50) && decide (p.r + 20 < p.g) && decide (p.b + 20 < p.g)

/-- The numpy branch: `arr[mask, 3] = 0` zeroes only the alpha channel of a
matching pixel and keeps its RGB values. -/
def numpy_branch_pixel (p : Pixel) : Pixel :=
  if green_mask p then { p with a := 0 } else p

/-- The per-pixel fallback branch: a matching pixel is replaced by the
tuple `(0, 0, 0, 0)`, all others are appended unchanged. -/
def fallback_branch_pixel (p : Pixel) : Pixel :=
  if green_mask p then ⟨0, 0, 0, 0⟩ else p

/-- The numpy branch applied to a whole (flattened) image. -/
def numpy_branch (img : List Pixel) : List Pixel :=
  img.map numpy_branch_pixel

/-- The per-pixel fallback branch applied to a whole (flattened) image. -/
def fallback_branch (img : List Pixel) : List Pixel :=
  img.map fallback_branch_pixel

/-! ## String helpers shared by several embedded functions -/

/-- Containment of a character sequence, mirroring Python's `pat in s`
for strings: true when `pat` occurs contiguously somewhere in `s`. -/
def containsSub (pat : List Char) : List Char → Bool
  | [] => pat.isEmpty
  | c :: rest => pat.isPrefixOf (c :: rest) || containsSub pat rest

/-- Python's `pat in s` on strings. -/
def strContains (pat s : String) : Bool :=
  containsSub pat.data s.data

/-- Python's `str.lower()`, as a character-wise map. -/
def lowerStr (s : String) : String :=
  String.mk (s.data.map Char.toLower)

/-! ## Platform target (`DriverManager._current_target`) -/

/-- Mirror of the frozen dataclass `PlatformTarget` of
src/bot/driver_manager.py. -/
structure PlatformTarget where
  os_name : String
  arch : String
  cft_platform : String
  executable_name : String
deriving DecidableEq, Repr

/-- Exceptions of the driver-install pipeline.  `driverInstall` stands for
Python's `DriverInstallError`; `other` stands for any other exception type
escaping a step (for example `zipfile.BadZipFile` during extraction). -/
inductive InstallExc where
  | driverInstall (msg : String)
  | other (msg : String)
deriving DecidableEq, Repr

/-- Mirror of `DriverManager._current_target`, parameterised by the strings
`platform.system()` and `platform.machine()` of the host. -/
def current_target (system machine : String) : Except InstallExc PlatformTarget :=
  let sys := lowerStr system
  let mach := lowerStr machine
  if sys = "darwin" then
    let arch := if strContains "arm" mach then "arm64" else "x64"
    let cft := if arch = "arm64" then "mac-arm64" else "mac-x64"
    .ok ⟨"mac", arch, cft, "chromedriver"⟩
  else if sys = "linux" then
    .ok ⟨"linux", "x64", "linux64", "chromedriver"⟩
  else if sys = "windows" then
    let arch :=
      if strContains "amd64" mach || strContains "x86_64" mach ||
          strContains "x64" mach then "x64" else "x86"
    let cft := if arch = "x64" then "win64" else "win32"
    .ok ⟨"win", arch, cft, "chromedriver.exe"⟩
  else
    .error (.driverInstall ("Unsupported OS: " ++ sys))

/-! ## Chrome-for-Testing metadata (`DriverManager._extract_sha256` etc.) -/

/-- One entry of `milestone["downloads"]["chromedriver"]`.  The three
optional checksum fields mirror the JSON keys `sha256`, `sha_256` and
`checksum` that `_extract_sha256` probes in that order. -/
structure CftDownloadItem where
  platform : String
  url : Option String
  sha256Field : Option String
  sha256AltField : Option String
  checksumField : Option String
deriving DecidableEq, Repr

/-- One milestone record; only the `downloads.chromedriver` list is read. -/
structure CftMilestone where
  chromedriverDownloads : List CftDownloadItem
deriving DecidableEq, Repr

/-- The fetched metadata document: `milestones` maps the decimal string of a
major version to a milestone record. -/
structure CftMetadata where
  milestones : List (String × CftMilestone)
deriving DecidableEq, Repr

/-- Membership in the character class `[a-fA-F0-9]`. -/
def isHexChar (c : Char) : Bool :=
  c.isDigit || ('a' ≤ c && c ≤ 'f') || ('A' ≤ c && c ≤ 'F')

/-- Python's `re.fullmatch(r"[a-fA-F0-9]\x7b64\x7d", value)`: exactly 64
hex digits. -/
def isHex64 (s : String) : Bool :=
  s.data.length = 64 && s.data.all isHexChar

/-- Mirror of `DriverManager._extract_sha256`: return the first of the
fields `sha256`, `sha_256`, `checksum` holding a 64-hex-digit string,
lowercased; otherwise none. -/
def extract_sha256 (item : CftDownloadItem) : Option String :=
  match item.sha256Field with
  | some v => if isHex64 v then some (lowerStr v) else
      match item.sha256AltField with
      | some w => if isHex64 w then some (lowerStr w) else
          match item.checksumField with
          | some u => if isHex64 u then some (lowerStr u) else none
          | none => none
      | none =>
          match item.checksumField with
          | some u => if isHex64 u then some (lowerStr u) else none
          | none => none
  | none =>
      match item.sha256AltField with
      | some w => if isHex64 w then some (lowerStr w) else
          match item.checksumField with
          | some u => if isHex64 u then some (lowerStr u) else none
          | none => none
      | none =>
          match item.checksumField with
          | some u => if isHex64 u then some (lowerStr u) else none
          | none => none

/-! ## Download retry loop (`DriverManager._download_with_retries`) -/

/-- Message raised after exhausting all download attempts; the payload of
the last caught transient error is appended, `"None"` when no attempt ran
(mirroring Python's interpolation of `last_error`). -/
def downloadFailMsg (retries : Nat) (lastError : Option String) : String :=
  "Failed to download driver after " ++ toString retries ++ " attempts: " ++
    (match lastError with
     | some e => e
     | none => "None")

/-- Loop body of `_download_with_retries`.  `attempts i` is the outcome of
the `i`-th `urlopen`/write attempt: either the downloaded archive bytes or
the message of a caught transient error (`URLError`, `TimeoutError`,
`OSError`).  Returns the overall result paired with the number of attempts
actually performed. -/
def downloadRetryLoop (attempts : Nat → Except String Bin) :
    Nat → Nat → Option String → Except InstallExc Bin × Nat
  | 0, used, lastError => (.error (.driverInstall (downloadFailMsg (used) lastError)), used)
  | remaining + 1, used, lastError =>
      match attempts used with
      | .ok archive => (.ok archive, used + 1)
      | .error e => downloadRetryLoop attempts remaining (used + 1) (some e)

/-- Mirror of `DriverManager._download_with_retries` with its default of
3 retries: on the first successful attempt the archive bytes are written to
the destination and the loop returns; if every attempt fails, a
`DriverInstallError` carrying the last error is raised. -/
def download_with_retries (attempts : Nat → Except String Bin)
    (retries : Nat := 3) : Except InstallExc Bin × Nat :=
  downloadRetryLoop attempts retries 0 none

/-! ## Download-and-install (`DriverManager._download_and_install_for_major`) -/

/-- The allow-listed URL head checked before any download. -/
def cftAllowedUrlHead : String :=
  "https://storage.googleapis.com/chrome-for-testing-public/"

/-- Persisted install-metadata record (one value of the `drivers` mapping
in `metadata.json`).  The wall-clock field `updated_at` of the source is
not modelled. -/
structure DriverRecord where
  path : String
  browser_major : Nat
  download_url : String
  archive_sha256 : String
deriving DecidableEq, Repr

/-- Observable filesystem state of the install pipeline: the content at the
final destination path, the content at the sibling temporary path
`destination + ".tmp"`, and the `drivers` records of the metadata sidecar
file.  The private download directory created by `TemporaryDirectory` is
deleted on exit of the `with` block and is therefore not part of the
observable state. -/
structure InstallFS where
  dest : Option Bin
  destTmp : Option Bin
  records : List (String × DriverRecord)
deriving DecidableEq, Repr

/-- Environment of the install pipeline: outcomes of its effectful
sub-calls.  `sha` models `hashlib.sha256(...).hexdigest()`, whose output is
a lowercase hex string; `unzip` models `zipfile.ZipFile(...).extractall`
returning the extracted `(file name, content)` entries in `rglob` order. -/
structure InstallEnv where
  fetchResult : Except String CftMetadata
  attempts : Nat → Except String Bin
  unzip : Bin → Except InstallExc (List (String × Bin))
  sha : Bin → String

/-- Insert or overwrite the record for one platform tag, as
`_write_metadata` does through `records[platform_name] = ...`. -/
def upsertRecord (records : List (String × DriverRecord)) (key : String)
    (value : DriverRecord) : List (String × DriverRecord) :=
  if records.any (fun kv => kv.1 = key) then
    records.map (fun kv => if kv.1 = key then (key, value) else kv)
  else
    records ++ [(key, value)]

/-- Mirror of `DriverManager._download_and_install_for_major`.  Every step
reproduces one statement of the Python function; a raised exception is the
`.error` case of the first component and leaves the filesystem in the state
the second component reports. -/
def download_and_install_for_major (env : InstallEnv) (browser_major : Nat)
    (target : PlatformTarget) (destPath : String) (fs : InstallFS) :
    Except InstallExc Unit × InstallFS :=
  match env.fetchResult with
  | .error e =>
      (.error (.driverInstall ("Failed to fetch Chrome for Testing metadata: " ++ e)), fs)
  | .ok metadata =>
  match metadata.milestones.lookup (toString browser_major) with
  | none =>
      (.error (.driverInstall ("No Chrome for Testing data for major version " ++
        toString browser_major ++ ".")), fs)
  | some milestone =>
  match milestone.chromedriverDownloads.find? (fun item => item.platform = target.cft_platform) with
  | none =>
      (.error (.driverInstall ("No chromedriver available for platform " ++
        target.cft_platform ++ ".")), fs)
  | some selected =>
  match selected.url with
  | none => (.error (.driverInstall "Detected unsafe driver download URL."), fs)
  | some download_url =>
  if ¬ cftAllowedUrlHead.data.isPrefixOf download_url.data then
    (.error (.driverInstall "Detected unsafe driver download URL."), fs)
  else
  match extract_sha256 selected with
  | none =>
      (.error (.driverInstall "Metadata does not contain sha256 for chromedriver archive."), fs)
  | some archive_sha256 =>
  match (download_with_retries env.attempts).1 with
  | .error e => (.error e, fs)
  | .ok archive =>
  if env.sha archive ≠ lowerStr archive_sha256 then
    (.error (.driverInstall ("chromedriver archive checksum mismatch: expected=" ++
      lowerStr archive_sha256 ++ " actual=" ++ env.sha archive)), fs)
  else
  match env.unzip archive with
  | .error e => (.error e, fs)
  | .ok files =>
  match files.find? (fun f => f.1 = target.executable_name) with
  | none =>
      (.error (.driverInstall "chromedriver binary not found after archive extraction."), fs)
  | some extracted =>
      let afterCopy : InstallFS := { fs with destTmp := some extracted.2 }
      let afterRename : InstallFS :=
        { afterCopy with dest := some extracted.2, destTmp := none }
      (.ok (),
        { afterRename with
            records := upsertRecord afterRename.records target.cft_platform
              ⟨destPath, browser_major, download_url, archive_sha256⟩ })

/-! ## Driver resolution (`DriverManager.resolve_driver`) -/

/-- Mirror of the frozen dataclass `DriverResolution`; the driver path is
kept as a string. -/
structure DriverResolution where
  driver_path : Option String
  browser_binary : String
  browser_major : Nat
  used_selenium_manager : Bool
deriving DecidableEq, Repr

/-- Exceptions escaping `resolve_driver`: `browserNotFound` stands for
`BrowserNotFoundError`, `install` for an exception of the install pipeline
raised outside the guarded `try` block. -/
inductive ResolveExc where
  | browserNotFound (msg : String)
  | install (e : InstallExc)
deriving DecidableEq, Repr

/-- Environment of one `resolve_driver` call: outcomes of its effectful
sub-calls and the relevant settings.  `binMajor` models invoking a binary
with `--version` and parsing the leading integer: it is applied to the
bytes currently installed at the destination path, and its error case is
the `DriverInstallError` that `_driver_major_version` raises on subprocess
or parse failure. -/
structure ResolveEnv where
  browserBinary : Except String String
  browserMajor : Except String Nat
  overridePath : Option String
  overrideExists : Bool
  system : String
  machine : String
  chromedriverDir : String
  binMajor : Bin → Except InstallExc Nat
  installEnv : InstallEnv

/-- Expected local driver location
`<chromedriver_dir>/<os>-<arch>/<executable_name>`. -/
def driverDestPath (dir : String) (target : PlatformTarget) : String :=
  dir ++ "/" ++ target.os_name ++ "-" ++ target.arch ++ "/" ++ target.executable_name

/-- Probe `_driver_major_version(destination)` over the modelled
filesystem: running a binary that is absent raises `OSError`, which the
source converts to a `DriverInstallError`. -/
def destMajorProbe (env : ResolveEnv) (fs : InstallFS) : Except InstallExc Nat :=
  match fs.dest with
  | none => .error (.driverInstall "Failed to get driver version: no such file")
  | some content => env.binMajor content

/-- The guarded `try` block of `resolve_driver`: run the full
download-and-install, then re-read the installed driver's major version and
raise on a mismatch.  Any error value produced here is what the
`except Exception` clause of the source catches. -/
def install_attempt (env : ResolveEnv) (browser_major : Nat)
    (target : PlatformTarget) (destPath : String) (fs : InstallFS) :
    Except InstallExc Nat × InstallFS :=
  match download_and_install_for_major env.installEnv browser_major target destPath fs with
  | (.error e, fs2) => (.error e, fs2)
  | (.ok _, fs2) =>
      match destMajorProbe env fs2 with
      | .error e => (.error e, fs2)
      | .ok installed_major =>
          if installed_major ≠ browser_major then
            (.error (.driverInstall ("Installed driver major version is " ++
              toString installed_major ++ ", expected " ++ toString browser_major ++ ".")),
              fs2)
          else (.ok installed_major, fs2)

/-- Mirror of `DriverManager.resolve_driver`.  The browser-binary probe and
its version parse happen first and their failures propagate as
`BrowserNotFoundError`; a configured and existing override path wins next;
then the reuse check runs outside any `try`, so a failing version probe of
an existing local driver propagates; finally the install attempt runs under
`try`, and any of its exceptions degrades to a resolution with no driver
path and the Selenium-Manager flag set. -/
def resolve_driver (force_refresh : Bool) (env : ResolveEnv) (fs : InstallFS) :
    Except ResolveExc DriverResolution × InstallFS :=
  match env.browserBinary with
  | .error msg => (.error (.browserNotFound msg), fs)
  | .ok browser_binary =>
  match env.browserMajor with
  | .error msg => (.error (.browserNotFound ("Failed to get browser version: " ++ msg)), fs)
  | .ok browser_major =>
  if env.overridePath.isSome ∧ env.overrideExists then
    (.ok ⟨env.overridePath, browser_binary, browser_major, false⟩, fs)
  else
  match current_target env.system env.machine with
  | .error e => (.error (.install e), fs)
  | .ok target =>
  let destination := driverDestPath env.chromedriverDir target
  let attempt : Except ResolveExc DriverResolution × InstallFS :=
    match install_attempt env browser_major target destination fs with
    | (.ok _, fs2) =>
        (.ok ⟨some destination, browser_binary, browser_major, false⟩, fs2)
    | (.error _, fs2) =>
        (.ok ⟨none, browser_binary, browser_major, true⟩, fs2)
  if ¬ force_refresh ∧ fs.dest.isSome then
    match destMajorProbe env fs with
    | .error e => (.error (.install e), fs)
    | .ok current_major =>
        if current_major = browser_major then
          (.ok ⟨some destination, browser_binary, browser_major, false⟩, fs)
        else attempt
  else attempt

/-! ## Candidate URL generation (`_build_candidate_urls`, src/bot/main.py) -/

/-- Python's `str.strip()` restricted to whitespace trimming. -/
def pyStrip (s : List Char) : List Char :=
  ((s.dropWhile Char.isWhitespace).reverse.dropWhile Char.isWhitespace).reverse

/-- Normalisation step of `_build_candidate_urls`: strip the input and, if
it does not start with `"http"`, put `"https://"` in front. -/
def normalize_input_url (url : List Char) : List Char :=
  let s := pyStrip url
  if "http".data.isPrefixOf s then s else "https://".data ++ s

/-- Python's `re.match(r"https?://t\.me/([^/?#]+)/([\d/]+)", s)`, returning
the two captured groups.  The scheme and host are literal; group one is the
maximal nonempty run of characters other than `/`, `?`, `#`; it must be
followed by a literal `/`; group two is the maximal nonempty run of digits
and slashes.  Greedy matching is deterministic here because group one
cannot end before a non-slash character and group two is final. -/
def tg_post_match (s : List Char) : Option (List Char × List Char) :=
  let rest? : Option (List Char) :=
    if "https://t.me/".data.isPrefixOf s then some (s.drop 13)
    else if "http://t.me/".data.isPrefixOf s then some (s.drop 12)
    else none
  match rest? with
  | none => none
  | some rest =>
      let notSep : Char → Bool := fun c => !(c == '/' || c == '?' || c == '#')
      let slug := rest.takeWhile notSep
      let afterSlug := rest.dropWhile notSep
      if slug.isEmpty then none
      else
        match afterSlug with
        | '/' :: r2 =>
            let ids := r2.takeWhile (fun c => c.isDigit || c == '/')
            if ids.isEmpty then none else some (slug, ids)
        | _ => none

/-- First-occurrence de-duplication with an accumulator of already seen
entries, mirroring the `seen` set loop at the end of
`_build_candidate_urls`. -/
def dedupeGo (seen : List (List Char)) : List (List Char) → List (List Char)
  | [] => []
  | x :: xs => if x ∈ seen then dedupeGo seen xs else x :: dedupeGo (x :: seen) xs

/-- De-duplicate, keeping the first occurrence of each entry. -/
def dedupe (l : List (List Char)) : List (List Char) :=
  dedupeGo [] l

/-- Mirror of `_build_candidate_urls`. -/
def build_candidate_urls (url : List Char) : List (List Char) :=
  let normalized := normalize_input_url url
  let urls1 : List (List Char) := [normalized]
  let urls2 :=
    match tg_post_match normalized with
    | some (slug, ids) =>
        let post_id := ids.takeWhile (fun c => !(c == '/'))
        urls1 ++ ["https://t.me/s/".data ++ slug ++ "/".data ++ post_id]
    | none => urls1
  let hasQuery := containsSub "?".data normalized
  let urls3 :=
    if containsSub "embed=1".data normalized then urls2
    else
      urls2 ++
        [normalized ++ (if hasQuery then "&embed=1".data else "?embed=1".data),
         normalized ++ (if hasQuery then "&embed=1&mode=tme".data else "?embed=1&mode=tme".data)]
  let urls4 :=
    if containsSub "?single".data normalized || containsSub "&single".data normalized then urls3
    else urls3 ++ [normalized ++ (if hasQuery then "&single".data else "?single".data)]
  dedupe urls4

/-- String-level wrapper of `build_candidate_urls`. -/
def build_candidate_urls_str (url : String) : List String :=
  (build_candidate_urls url.data).map String.mk

/-! ## Link validation and capture filename (src/bot/main.py) -/

/-- Python's `\w` character class as it applies to the ASCII inputs this
system handles: letters, digits and underscore (the source pattern
`[\w\d_]` is this class since `\w` already covers `\d` and `_`). -/
def wordChar (c : Char) : Bool :=
  c.isAlphanum || c == '_'

/-- Structural engine of the matcher for the group `(/\d+)+$`: the fuel
only bounds the recursion depth and never runs out when it starts at the
length of the input (every step drops at least one character). -/
def matchIdGroupsFuel : Nat → List Char → Bool
  | _, [] => false
  | 0, _ :: _ => false
  | fuel + 1, c :: rest =>
      if c == '/' then
        let digitsRun := rest.takeWhile Char.isDigit
        let rest2 := rest.dropWhile Char.isDigit
        if digitsRun.isEmpty then false
        else rest2.isEmpty || matchIdGroupsFuel fuel rest2
      else false

/-- Tail matcher for the group `(/\d+)+$`: one or more segments, each a
slash followed by a nonempty digit run, ending the string. -/
def matchIdGroups (s : List Char) : Bool :=
  matchIdGroupsFuel s.length s

/-- Matcher for `[\w\d_]+(/\d+)+$` after the host slash. -/
def tgLinkPath (s : List Char) : Bool :=
  let name := s.takeWhile wordChar
  let rest := s.dropWhile wordChar
  !name.isEmpty && matchIdGroups rest

/-- Matcher for the full pattern
`^(https://)?(t\.me|telegram\.me)/[\w\d_]+(/\d+)+$` of `validate_tg_link`. -/
def tgLinkMatch (s : List Char) : Bool :=
  let t := if "https://".data.isPrefixOf s then s.drop 8 else s
  if "t.me/".data.isPrefixOf t then tgLinkPath (t.drop 5)
  else if "telegram.me/".data.isPrefixOf t then tgLinkPath (t.drop 12)
  else false

/-- Mirror of `validate_tg_link`: match the stripped text against the link
pattern; on success return the stripped text, with `"https://"` put in
front when the original (unstripped) text does not start with it. -/
def validate_tg_link (text : String) : Option String :=
  let stripped := pyStrip text.data
  if tgLinkMatch stripped then
    some (if "https://".data.isPrefixOf text.data then String.mk stripped
      else String.mk ("https://".data ++ stripped))
  else none

/-- Structural engine of Python's `str.split(sep)`: the fuel only bounds
the recursion depth and never runs out when it starts at the length of the
input (every step drops at least one character). -/
def pySplitFuel (sep : List Char) : Nat → List Char → List (List Char)
  | _, [] => [[]]
  | 0, s => [s]
  | fuel + 1, c :: rest =>
      if sep ≠ [] ∧ sep.isPrefixOf (c :: rest) then
        [] :: pySplitFuel sep fuel ((c :: rest).drop sep.length)
      else
        match pySplitFuel sep fuel rest with
        | [] => [[c]]
        | piece :: more => (c :: piece) :: more

/-- Python's `str.split(sep)` for a nonempty separator: leftmost,
non-overlapping cuts; always returns at least one piece. -/
def pySplit (sep s : List Char) : List (List Char) :=
  pySplitFuel sep s.length s

/-- Character replacement of `re.sub(r"[^a-zA-Z0-9]", "_", ...)`. -/
def sanitizeChar (c : Char) : Char :=
  if c.isAlphanum then c else '_'

/-- Filename derivation of `capture_telegram_post` (src/bot/main.py line
523): take the part of the URL after the last occurrence of `"t.me/"` (the
whole URL when absent), cut at `"?embed=1"`, replace every non-alphanumeric
character with `_`, fall back to `"post"` when empty, and append
`".png"`. -/
def capture_filename (url : List Char) : List Char :=
  let afterHost := (pySplit "t.me/".data url).getLastD []
  let base := (pySplit "?embed=1".data afterHost).headD []
  let cleaned := base.map sanitizeChar
  (if cleaned.isEmpty then "post".data else cleaned) ++ ".png".data

/-- Stated from the claim and section 6 of the spec: the filename expected
for a validated URL, built from the URL path segment after the host — strip
an `embed` query suffix if present, replace every non-alphanumeric
character with `_`, fall back to `"post"` when empty, append `".png"`. -/
def claimed_filename (pathAfterHost : List Char) : List Char :=
  let base := (pySplit "?embed=1".data pathAfterHost).headD []
  let cleaned := base.map sanitizeChar
  (if cleaned.isEmpty then "post".data else cleaned) ++ ".png".data

/-- The path segment after the host of a validated URL (the validator only
accepts hosts `t.me` and `telegram.me`, possibly behind `https://`). -/
def validatedPathAfterHost (url : List Char) : Option (List Char) :=
  let t := if "https://".data.isPrefixOf url then url.drop 8 else url
  if "t.me/".data.isPrefixOf t then some (t.drop 5)
  else if "telegram.me/".data.isPrefixOf t then some (t.drop 12)
  else none

/-- The path tail built from numeric post-id segments: one `/` before each
segment, matching the `(/\d+)+` suffix shape accepted by the validator. -/
def idSegmentsPath (ids : List (List Char)) : List Char :=
  (ids.map (fun seg => '/' :: seg)).join

/-! ## Session teardown and rebuild (`_ensure_driver`, src/bot/main.py) -/

/-- A live browser session handle: the dynamic attribute `_tsp_profile_dir`
set by `_mark_driver` is the optional owned temporary profile directory. -/
structure SessionDriver where
  id : Nat
  profileDir : Option String
deriving DecidableEq, Repr

/-- Module-level mutable state of src/bot/main.py touched by
`_ensure_driver`: the session slot, the tracked temp-profile-directory
list, the set of profile directories existing on disk, the last
resolution, and whether the process pool exists.  The `_driver_error_hint`
global is mutated on the `BrowserNotFoundError` path right before the
re-raise; since the error channel of this model carries no state, that
write is not observable here and is not modelled. -/
structure BotState where
  driver : Option SessionDriver
  tempProfileDirs : List String
  fsDirs : List String
  resolution : Option DriverResolution
  poolCreated : Bool
deriving DecidableEq, Repr

/-- Outcomes of the effectful sub-calls of one `_ensure_driver` call.
`rmtreeOk` tells whether `shutil.rmtree(profile_dir, ignore_errors=True)`
actually removed the directory; either way that call returns normally. -/
structure EnsureEnv where
  quitResult : Except String Unit
  rmtreeOk : Bool
  resolveResult : Except ResolveExc DriverResolution
  createResult : Except String SessionDriver

/-- Exceptions escaping `_ensure_driver`. -/
inductive EnsureExc where
  | quitFailed (msg : String)
  | resolveFailed (e : ResolveExc)
  | createFailed (msg : String)
deriving DecidableEq, Repr

/-- Mirror of `_cleanup_profile_from_driver`: with no profile directory it
does nothing; otherwise it removes the directory from disk while swallowing
every error of that removal, and drops the first matching entry of the
tracked list, swallowing the `ValueError` when the entry is absent. -/
def cleanup_profile_from_driver (rmtreeOk : Bool) (d : SessionDriver)
    (st : BotState) : BotState :=
  match d.profileDir with
  | none => st
  | some p =>
      let st1 := if rmtreeOk then { st with fsDirs := st.fsDirs.erase p } else st
      { st1 with tempProfileDirs := st1.tempProfileDirs.erase p }

/-- Resolution and session construction shared by both paths of
`_ensure_driver`: resolve the driver (a `BrowserNotFoundError` records a
hint and re-raises, any other resolution error propagates), then build the
Chrome session; `_create_driver_sync` allocates the temporary profile
directory that `_mark_driver` records. -/
def ensure_boot (env : EnsureEnv) (st : BotState) : Except EnsureExc BotState :=
  match env.resolveResult with
  | .error e => .error (.resolveFailed e)
  | .ok res =>
      match env.createResult with
      | .error m => .error (.createFailed m)
      | .ok d =>
          let st1 := { st with resolution := some res }
          let st2 :=
            match d.profileDir with
            | some p =>
                { st1 with
                    tempProfileDirs := st1.tempProfileDirs ++ [p],
                    fsDirs := st1.fsDirs ++ [p] }
            | none => st1
          .ok { st2 with driver := some d }

/-- Mirror of `_ensure_driver`.  When forcing refresh with a live session,
the slot is cleared, the old session is quit — with no exception handler
around that call, so a failing quit propagates — and only then is the
profile cleanup (which swallows its own errors) and the boot of the new
session reached.  Without a forced refresh an existing session returns
immediately. -/
def ensure_driver (force_refresh : Bool) (env : EnsureEnv) (st : BotState) :
    Except EnsureExc BotState :=
  let st0 := { st with poolCreated := true }
  match st0.driver with
  | some stale =>
      if force_refresh then
        let st1 := { st0 with driver := none }
        match env.quitResult with
        | .error e => .error (.quitFailed e)
        | .ok _ => ensure_boot env (cleanup_profile_from_driver env.rmtreeOk stale st1)
      else .ok st0
  | none => ensure_boot env st0

/-! ## Per-user rate limiting (`_rate_limit_retry_after`, src/bot/main.py) -/

/-- Mirror of `_rate_limit_retry_after` together with the
`_last_user_request_ts` dictionary it guards: given the configured limit,
the stored per-user timestamps, the requesting user and the current
monotonic time, return the retry-after value (0 admits the request) and the
updated timestamp store.  A non-positive configured limit short-circuits to
0; a stored timestamp within the limit returns the positive remainder and
leaves the store untouched; otherwise the current time is recorded and the
request is admitted. -/
def rate_limit_retry_after (limit : ℚ) (lastTs : Int → Option ℚ)
    (userId : Int) (now : ℚ) : ℚ × (Int → Option ℚ) :=
  if limit ≤ 0 then (0, lastTs)
  else
    match lastTs userId with
    | some lastSeen =>
        let retryAfter := limit - (now - lastSeen)
        if 0 < retryAfter then (retryAfter, lastTs)
        else (0, fun u => if u = userId then some now else lastTs u)
    | none => (0, fun u => if u = userId then some now else lastTs u)

/-! ## Concrete fixtures used by witness statements -/

/-- A fully concrete resolution environment on a Linux host whose metadata
fetch fails with a network error. -/
def fetchFailEnv : ResolveEnv where
  browserBinary := .ok "/usr/bin/google-chrome"
  browserMajor := .ok 120
  overridePath := none
  overrideExists := false
  system := "Linux"
  machine := "x86_64"
  chromedriverDir := "/app/chromedriver"
  binMajor := fun _ => .ok 120
  installEnv :=
    { fetchResult := .error "connection refused"
      attempts := fun _ => .error "connection refused"
      unzip := fun _ => .error (.other "bad zip")
      sha := fun _ => "00" }

/-- The empty install filesystem: nothing at the destination, nothing at
the temporary sibling, no metadata records. -/
def emptyFS : InstallFS where
  dest := none
  destTmp := none
  records := []

/-- Concrete download item of the witness metadata. -/
def mismatchItem : CftDownloadItem where
  platform := "linux64"
  url := some "https://storage.googleapis.com/chrome-for-testing-public/120.0.0.0/linux64/chromedriver-linux64.zip"
  sha256Field := some "aaaaaaaaaaaaaaaaaaaaaaaaaaaaaaaaaaaaaaaaaaaaaaaaaaaaaaaaaaaaaaaa"
  sha256AltField := none
  checksumField := none

/-- A fully concrete install environment whose metadata is well-formed but
whose downloaded archive hashes to a value different from the advertised
checksum. -/
def mismatchEnv : InstallEnv where
  fetchResult := .ok ⟨[("120", ⟨[mismatchItem]⟩)]⟩
  attempts := fun _ => .ok [1, 2, 3]
  unzip := fun _ => .ok [("chromedriver", [9, 9])]
  sha := fun _ => "bbbbbbbbbbbbbbbbbbbbbbbbbbbbbbbbbbbbbbbbbbbbbbbbbbbbbbbbbbbbbbbb"

/-- A bot state holding a live session that owns a temporary profile
directory. -/
def liveSessionSt : BotState where
  driver := some ⟨1, some "/tmp/tsp-chrome-profile-1"⟩
  tempProfileDirs := ["/tmp/tsp-chrome-profile-1"]
  fsDirs := ["/tmp/tsp-chrome-profile-1"]
  resolution := none
  poolCreated := false

/-- A teardown environment whose session quit raises. -/
def quitFailEnv : EnsureEnv where
  quitResult := .error "chrome not reachable"
  rmtreeOk := true
  resolveResult := .ok ⟨some "/app/driver", "/usr/bin/google-chrome", 120, false⟩
  createResult := .ok ⟨2, none⟩

/-- The same environment with a successful quit. -/
def quitOkEnv : EnsureEnv :=
  { quitFailEnv with quitResult := .ok () }

/-! ## Helper lemmas -/

theorem dedupeGo_mem_not_seen {l : List (List Char)} :
    ∀ {seen x}, x ∈ dedupeGo seen l → x ∉ seen := by
  induction l with
  | nil => intro seen x hx; simp [dedupeGo] at hx
  | cons y ys ih =>
      intro seen x hx
      by_cases hy : y ∈ seen
      · rw [dedupeGo, if_pos hy] at hx
        exact ih hx
      · rw [dedupeGo, if_neg hy] at hx
        rcases List.mem_cons.mp hx with rfl | hx
        · exact hy
        · have := ih hx
          intro hxs
          exact this (List.mem_cons_of_mem _ hxs)

theorem dedupeGo_nodup (l : List (List Char)) : ∀ seen, (dedupeGo seen l).Nodup := by
  induction l with
  | nil => intro seen; simp [dedupeGo]
  | cons y ys ih =>
      intro seen
      by_cases hy : y ∈ seen
      · rw [dedupeGo, if_pos hy]; exact ih seen
      · rw [dedupeGo, if_neg hy]
        refine List.nodup_cons.mpr ⟨?_, ih (y :: seen)⟩
        intro hmem
        exact dedupeGo_mem_not_seen hmem (List.mem_cons_self _ _)

theorem dedupe_nodup (l : List (List Char)) : (dedupe l).Nodup :=
  dedupeGo_nodup l []

theorem dedupe_cons_head (x : List Char) (xs : List (List Char)) :
    dedupe (x :: xs) = x :: dedupeGo [x] xs := by
  rw [dedupe, dedupeGo, if_neg (List.not_mem_nil x)]

theorem isPrefixOf_append_self (p s : List Char) : p.isPrefixOf (p ++ s) = true := by
  induction p with
  | nil => simp [List.isPrefixOf]
  | cons c cs ih => simp [List.isPrefixOf, ih]

theorem mem_of_isPrefixOf {p s : List Char} (h : p.isPrefixOf s = true) :
    ∀ {x : Char}, x ∈ p → x ∈ s := by
  induction p generalizing s with
  | nil => intro x hx; cases hx
  | cons c cs ih =>
      intro x hx
      cases s with
      | nil => simp [List.isPrefixOf] at h
      | cons d ds =>
          simp only [List.isPrefixOf, Bool.and_eq_true, beq_iff_eq] at h
          rcases List.mem_cons.mp hx with rfl | hx
          · exact h.1 ▸ List.mem_cons_self _ _
          · exact List.mem_cons_of_mem _ (ih h.2 hx)

theorem pySplitFuel_irrel (sep : List Char) :
    ∀ (f1 : Nat) (s : List Char), s.length ≤ f1 → ∀ (f2 : Nat), s.length ≤ f2 →
      pySplitFuel sep f1 s = pySplitFuel sep f2 s := by
  intro f1
  induction f1 with
  | zero =>
      intro s hs f2 _
      have hnil : s = [] := List.length_eq_zero.mp (Nat.le_zero.mp hs)
      subst hnil
      cases f2 <;> rfl
  | succ g ih =>
      intro s hs f2 hs2
      cases s with
      | nil => cases f2 <;> rfl
      | cons c rest =>
          cases f2 with
          | zero => simp at hs2
          | succ g2 =>
              simp only [pySplitFuel]
              have hrest1 : rest.length ≤ g := by
                simp only [List.length_cons] at hs; omega
              have hrest2 : rest.length ≤ g2 := by
                simp only [List.length_cons] at hs2; omega
              by_cases hcond : sep ≠ [] ∧ sep.isPrefixOf (c :: rest)
              · rw [if_pos hcond, if_pos hcond]
                have hpos : 0 < sep.length := List.length_pos.mpr hcond.1
                have hlen : ((c :: rest).drop sep.length).length ≤ g := by
                  simp only [List.length_drop, List.length_cons]; omega
                have hlen2 : ((c :: rest).drop sep.length).length ≤ g2 := by
                  simp only [List.length_drop, List.length_cons]; omega
                rw [ih _ hlen _ hlen2]
              · rw [if_neg hcond, if_neg hcond, ih _ hrest1 _ hrest2]

theorem pySplit_nil (sep : List Char) : pySplit sep [] = [[]] := rfl

theorem pySplit_cons_of_ne (sep : List Char) (c : Char) (rest : List Char)
    (h : sep.isPrefixOf (c :: rest) = false) (p : List Char) (m : List (List Char))
    (hrest : pySplit sep rest = p :: m) :
    pySplit sep (c :: rest) = (c :: p) :: m := by
  have hcond : ¬ (sep ≠ [] ∧ sep.isPrefixOf (c :: rest)) := by
    rintro ⟨-, h2⟩
    rw [h] at h2
    exact Bool.false_ne_true h2
  show pySplitFuel sep (rest.length + 1) (c :: rest) = (c :: p) :: m
  simp only [pySplitFuel]
  rw [if_neg hcond]
  rw [pySplit] at hrest
  rw [hrest]

theorem pySplit_sep_append {sep : List Char} (h : sep ≠ []) (s : List Char) :
    pySplit sep (sep ++ s) = [] :: pySplit sep s := by
  cases sep with
  | nil => exact absurd rfl h
  | cons c cs =>
      show pySplitFuel (c :: cs) ((cs ++ s).length + 1) (c :: (cs ++ s)) =
        [] :: pySplit (c :: cs) s
      simp only [pySplitFuel]
      rw [if_pos ⟨h, isPrefixOf_append_self (c :: cs) s⟩]
      congr 1
      have hdrop : (c :: (cs ++ s)).drop (c :: cs).length = s := by
        rw [List.length_cons, List.drop_succ_cons, List.drop_left]
      rw [hdrop, pySplit]
      exact pySplitFuel_irrel (c :: cs) (cs ++ s).length s (by simp) s.length le_rfl

theorem pySplit_of_not_mem {x : Char} {sep : List Char} (hx : x ∈ sep) :
    ∀ (s : List Char), x ∉ s → pySplit sep s = [s] := by
  intro s
  induction s with
  | nil => intro _; exact pySplit_nil sep
  | cons c rest ih =>
      intro hmem
      have hrest : pySplit sep rest = [rest] :=
        ih (fun hc => hmem (List.mem_cons_of_mem _ hc))
      refine pySplit_cons_of_ne sep c rest ?_ rest [] hrest
      by_contra hfalse
      have htrue : sep.isPrefixOf (c :: rest) = true := by
        cases hp : sep.isPrefixOf (c :: rest) with
        | false => exact absurd hp hfalse
        | true => rfl
      exact hmem (mem_of_isPrefixOf htrue hx)

theorem takeWhile_append_all {p : Char → Bool} {xs : List Char}
    (h : ∀ x ∈ xs, p x = true) (ys : List Char) :
    (xs ++ ys).takeWhile p = xs ++ ys.takeWhile p := by
  induction xs with
  | nil => simp
  | cons c cs ih =>
      have hc := h c (List.mem_cons_self _ _)
      simp only [List.cons_append, List.takeWhile_cons, hc, if_true]
      rw [ih (fun x hx => h x (List.mem_cons_of_mem _ hx))]

theorem dropWhile_append_all {p : Char → Bool} {xs : List Char}
    (h : ∀ x ∈ xs, p x = true) (ys : List Char) :
    (xs ++ ys).dropWhile p = ys.dropWhile p := by
  induction xs with
  | nil => simp
  | cons c cs ih =>
      have hc := h c (List.mem_cons_self _ _)
      simp only [List.cons_append, List.dropWhile_cons, hc, if_true]
      exact ih (fun x hx => h x (List.mem_cons_of_mem _ hx))

theorem dropWhile_all_false {p : Char → Bool} :
    ∀ {s : List Char}, (∀ c ∈ s, p c = false) → s.dropWhile p = s := by
  intro s
  induction s with
  | nil => intro _; rfl
  | cons c cs ih =>
      intro h
      simp only [List.dropWhile_cons, h c (List.mem_cons_self _ _),
        Bool.false_eq_true, if_false]

theorem pyStrip_eq_self {s : List Char}
    (h : ∀ c ∈ s, c.isWhitespace = false) : pyStrip s = s := by
  rw [pyStrip, dropWhile_all_false h, dropWhile_all_false
    (fun c hc => h c (List.mem_reverse.mp hc)), List.reverse_reverse]

theorem whitespace_cases {c : Char} (h : c.isWhitespace = true) :
    c = ' ' ∨ c = '\t' ∨ c = '\r' ∨ c = '\n' := by
  simp only [Char.isWhitespace, Bool.or_eq_true, decide_eq_true_eq] at h
  tauto

theorem wordChar_not_whitespace {c : Char} (h : wordChar c = true) :
    c.isWhitespace = false := by
  cases hw : c.isWhitespace with
  | false => rfl
  | true =>
      rcases whitespace_cases hw with rfl | rfl | rfl | rfl <;> simp [wordChar] at h

theorem isDigit_not_whitespace {c : Char} (h : c.isDigit = true) :
    c.isWhitespace = false := by
  cases hw : c.isWhitespace with
  | false => rfl
  | true =>
      rcases whitespace_cases hw with rfl | rfl | rfl | rfl <;> simp at h

theorem idSegmentsPath_cons (seg : List Char) (rest : List (List Char)) :
    idSegmentsPath (seg :: rest) = '/' :: (seg ++ idSegmentsPath rest) := by
  simp [idSegmentsPath]

theorem mem_idSegmentsPath {ids : List (List Char)}
    (hsegs : ∀ seg ∈ ids, ∀ c ∈ seg, c.isDigit = true) :
    ∀ x ∈ idSegmentsPath ids, x = '/' ∨ x.isDigit = true := by
  intro x hx
  rw [idSegmentsPath] at hx
  obtain ⟨l, hl, hxl⟩ := List.mem_join.mp hx
  obtain ⟨seg, hseg, rfl⟩ := List.mem_map.mp hl
  rcases List.mem_cons.mp hxl with rfl | hxseg
  · exact Or.inl rfl
  · exact Or.inr (hsegs seg hseg x hxseg)

theorem matchIdGroupsFuel_irrel :
    ∀ (f1 : Nat) (s : List Char), s.length ≤ f1 → ∀ (f2 : Nat), s.length ≤ f2 →
      matchIdGroupsFuel f1 s = matchIdGroupsFuel f2 s := by
  intro f1
  induction f1 with
  | zero =>
      intro s hs f2 _
      have hnil : s = [] := List.length_eq_zero.mp (Nat.le_zero.mp hs)
      subst hnil
      cases f2 <;> rfl
  | succ g ih =>
      intro s hs f2 hs2
      cases s with
      | nil => cases f2 <;> rfl
      | cons c rest =>
          cases f2 with
          | zero => simp at hs2
          | succ g2 =>
              simp only [matchIdGroupsFuel]
              have hrest1 : rest.length ≤ g := by
                simp only [List.length_cons] at hs; omega
              have hrest2 : rest.length ≤ g2 := by
                simp only [List.length_cons] at hs2; omega
              have hlen := (List.dropWhile_sublist (l := rest)
                (p := Char.isDigit)).length_le
              rw [ih (rest.dropWhile Char.isDigit) (le_trans hlen hrest1) g2
                (le_trans hlen hrest2)]

theorem matchIdGroups_cons (c : Char) (rest : List Char) :
    matchIdGroups (c :: rest) =
      if c == '/' then
        if (rest.takeWhile Char.isDigit).isEmpty then false
        else (rest.dropWhile Char.isDigit).isEmpty ||
          matchIdGroups (rest.dropWhile Char.isDigit)
      else false := by
  show matchIdGroupsFuel (rest.length + 1) (c :: rest) = _
  simp only [matchIdGroupsFuel, matchIdGroups]
  have hlen := (List.dropWhile_sublist (l := rest) (p := Char.isDigit)).length_le
  rw [matchIdGroupsFuel_irrel rest.length (rest.dropWhile Char.isDigit) hlen
    (rest.dropWhile Char.isDigit).length le_rfl]

theorem matchIdGroups_idSegmentsPath :
    ∀ (ids : List (List Char)), ids ≠ [] →
    (∀ seg ∈ ids, seg ≠ [] ∧ ∀ c ∈ seg, c.isDigit = true) →
    matchIdGroups (idSegmentsPath ids) = true := by
  intro ids
  induction ids with
  | nil => intro h; exact absurd rfl h
  | cons seg rest ih =>
      intro _ hsegs
      obtain ⟨hseg_ne, hseg_digits⟩ := hsegs seg (List.mem_cons_self _ _)
      rw [idSegmentsPath_cons, matchIdGroups_cons]
      simp only [beq_self_eq_true, if_true]
      rw [takeWhile_append_all hseg_digits, dropWhile_append_all hseg_digits]
      cases rest with
      | nil =>
          simp only [idSegmentsPath, List.map_nil, List.join_nil,
            List.takeWhile_nil, List.dropWhile_nil, List.append_nil,
            List.isEmpty_nil, Bool.or_true, Bool.and_true]
          simp [List.isEmpty_eq_true, hseg_ne]
      | cons seg2 rest2 =>
          rw [idSegmentsPath_cons]
          simp only [List.takeWhile_cons, List.dropWhile_cons]
          have hslash : ('/').isDigit = false := by decide
          simp only [hslash, Bool.false_eq_true, if_false, List.append_nil]
          have hm : matchIdGroups (idSegmentsPath (seg2 :: rest2)) = true :=
            ih (by simp) (fun s hs => hsegs s (List.mem_cons_of_mem _ hs))
          rw [idSegmentsPath_cons] at hm
          simp [List.isEmpty_eq_true, hseg_ne, hm]

theorem tgLinkPath_append {channel : List Char} {ids : List (List Char)}
    (hch : channel ≠ []) (hchw : ∀ c ∈ channel, wordChar c = true)
    (hids : ids ≠ [])
    (hsegs : ∀ seg ∈ ids, seg ≠ [] ∧ ∀ c ∈ seg, c.isDigit = true) :
    tgLinkPath (channel ++ idSegmentsPath ids) = true := by
  rw [tgLinkPath]
  rw [takeWhile_append_all hchw, dropWhile_append_all hchw]
  cases ids with
  | nil => exact absurd rfl hids
  | cons seg rest =>
      rw [idSegmentsPath_cons]
      simp only [List.takeWhile_cons, List.dropWhile_cons]
      have hslash : wordChar '/' = false := by decide
      simp only [hslash, Bool.false_eq_true, if_false, List.append_nil]
      have hm := matchIdGroups_idSegmentsPath (seg :: rest) (by simp) hsegs
      rw [idSegmentsPath_cons] at hm
      simp [List.isEmpty_eq_true, hch, hm]

theorem pySplit_tme {path : List Char} (hdot : ('.') ∉ path) :
    pySplit "t.me/".data ("https://t.me/".data ++ path) =
      ["https://".data, path] := by
  have hdotsep : ('.') ∈ "t.me/".data := by decide
  have h0 : pySplit "t.me/".data path = [path] :=
    pySplit_of_not_mem hdotsep path hdot
  have h1 : pySplit "t.me/".data ("t.me/".data ++ path) = [] :: [path] := by
    rw [pySplit_sep_append (by decide) path, h0]
  have h2 : pySplit "t.me/".data ('/' :: ("t.me/".data ++ path)) =
      ['/'] :: [path] :=
    pySplit_cons_of_ne _ _ _ (by simp [List.isPrefixOf]) _ _ h1
  have h3 : pySplit "t.me/".data ('/' :: '/' :: ("t.me/".data ++ path)) =
      ['/', '/'] :: [path] :=
    pySplit_cons_of_ne _ _ _ (by simp [List.isPrefixOf]) _ _ h2
  have h4 : pySplit "t.me/".data (':' :: '/' :: '/' :: ("t.me/".data ++ path)) =
      [':', '/', '/'] :: [path] :=
    pySplit_cons_of_ne _ _ _ (by simp [List.isPrefixOf]) _ _ h3
  have h5 : pySplit "t.me/".data
      ('s' :: ':' :: '/' :: '/' :: ("t.me/".data ++ path)) =
      ['s', ':', '/', '/'] :: [path] :=
    pySplit_cons_of_ne _ _ _ (by simp [List.isPrefixOf]) _ _ h4
  have h6 : pySplit "t.me/".data
      ('p' :: 's' :: ':' :: '/' :: '/' :: ("t.me/".data ++ path)) =
      ['p', 's', ':', '/', '/'] :: [path] :=
    pySplit_cons_of_ne _ _ _ (by simp [List.isPrefixOf]) _ _ h5
  have h7 : pySplit "t.me/".data
      ('t' :: 'p' :: 's' :: ':' :: '/' :: '/' :: ("t.me/".data ++ path)) =
      ['t', 'p', 's', ':', '/', '/'] :: [path] :=
    pySplit_cons_of_ne _ _ _ (by simp [List.isPrefixOf]) _ _ h6
  have h8 : pySplit "t.me/".data
      ('t' :: 't' :: 'p' :: 's' :: ':' :: '/' :: '/' :: ("t.me/".data ++ path)) =
      ['t', 't', 'p', 's', ':', '/', '/'] :: [path] :=
    pySplit_cons_of_ne _ _ _ (by simp [List.isPrefixOf]) _ _ h7
  exact pySplit_cons_of_ne _ _ _ (by simp [List.isPrefixOf]) _ _ h8

theorem build_candidate_urls_head (url : List Char) :
    (build_candidate_urls url).head? = some (normalize_input_url url) := by
  rw [build_candidate_urls]
  cases h : tg_post_match (normalize_input_url url) with
  | none =>
      simp only [h]
      split <;> split <;>
        simp [dedupe_cons_head, List.cons_append]
  | some v =>
      simp only [h]
      split <;> split <;>
        simp [dedupe_cons_head, List.cons_append]

/-! ## Claim theorems -/

/-- C3: candidate-URL generation for the input `t.me/examplechan/42`
returns exactly the five listed URLs in order with no duplicates, and for
every input string the returned list is de-duplicated and begins with the
input normalized (scheme defaulted to https when the stripped input does
not already start with `"http"`). -/
theorem C3_candidate_urls :
    build_candidate_urls_str "t.me/examplechan/42" =
      ["https://t.me/examplechan/42", "https://t.me/s/examplechan/42",
       "https://t.me/examplechan/42?embed=1",
       "https://t.me/examplechan/42?embed=1&mode=tme",
       "https://t.me/examplechan/42?single"] ∧
    ∀ url : String,
      (build_candidate_urls url.data).head? = some (normalize_input_url url.data) ∧
      (build_candidate_urls url.data).Nodup := by
  refine ⟨by decide, fun url => ⟨build_candidate_urls_head url.data, ?_⟩⟩
  rw [build_candidate_urls]
  exact dedupe_nodup _

/-- C4: the chroma-key predicate holds exactly when red is in `[30, 90]`,
green is at least 220, blue is at most 50, and green exceeds both red and
blue by more than 20; pixel `(60, 255, 0, 255)` is stripped to alpha 0 by
both processing branches, while `(0, 128, 0, 255)` and `(60, 255, 60, 255)`
pass through unchanged. -/
theorem C4_green_mask :
    (∀ p : Pixel, green_mask p = true ↔
      (30 ≤ p.r ∧ p.r ≤ 90 ∧ 220 ≤ p.g ∧ p.b ≤ 50 ∧
        p.r + 20 < p.g ∧ p.b + 20 < p.g)) ∧
    numpy_branch [⟨60, 255, 0, 255⟩] = [⟨60, 255, 0, 0⟩] ∧
    fallback_branch [⟨60, 255, 0, 255⟩] = [⟨0, 0, 0, 0⟩] ∧
    numpy_branch [⟨0, 128, 0, 255⟩] = [⟨0, 128, 0, 255⟩] ∧
    fallback_branch [⟨0, 128, 0, 255⟩] = [⟨0, 128, 0, 255⟩] ∧
    numpy_branch [⟨60, 255, 60, 255⟩] = [⟨60, 255, 60, 255⟩] ∧
    fallback_branch [⟨60, 255, 60, 255⟩] = [⟨60, 255, 60, 255⟩] := by
  refine ⟨fun p => ?_, by decide, by decide, by decide, by decide, by decide, by decide⟩
  simp only [green_mask, Bool.and_eq_true, decide_eq_true_eq]
  tauto

/-- C5 counterexample: the claim that the two branches of
`_remove_green_pixels_sync` compute the same function fails on the
one-pixel image `(60, 255, 0, 255)`: the vectorised branch keeps the RGB
values and clears alpha, the per-pixel branch writes `(0, 0, 0, 0)`. -/
theorem C5_counterexample :
    numpy_branch [⟨60, 255, 0, 255⟩] ≠ fallback_branch [⟨60, 255, 0, 255⟩] := by
  decide

/-- C5 amended: the two branches agree on image shape, on the whole alpha
channel, and on every pixel that does not match the chroma-key predicate
(passed through unchanged); on a matching pixel both set alpha 0, but the
vectorised branch preserves the pixel's RGB while the per-pixel branch
writes `(0, 0, 0, 0)`, so the branches are not the same function. -/
theorem C5_branches_agree_amended :
    ∀ img : List Pixel,
      (numpy_branch img).length = (fallback_branch img).length ∧
      (numpy_branch img).map Pixel.a = (fallback_branch img).map Pixel.a ∧
      ∀ p : Pixel,
        (green_mask p = false →
          numpy_branch_pixel p = p ∧ fallback_branch_pixel p = p) ∧
        (green_mask p = true →
          numpy_branch_pixel p = ⟨p.r, p.g, p.b, 0⟩ ∧
          fallback_branch_pixel p = ⟨0, 0, 0, 0⟩) := by
  intro img
  refine ⟨by simp [numpy_branch, fallback_branch], ?_, fun p => ⟨fun hm => ?_, fun hm => ?_⟩⟩
  · simp only [numpy_branch, fallback_branch, List.map_map]
    refine List.map_congr_left (fun p _ => ?_)
    simp only [Function.comp_apply, numpy_branch_pixel, fallback_branch_pixel]
    by_cases hm : green_mask p <;> simp [hm]
  · simp [numpy_branch_pixel, fallback_branch_pixel, hm]
  · constructor
    · simp only [numpy_branch_pixel, hm, if_true]
    · simp [fallback_branch_pixel, hm]

/-- C5 amended witness at the concrete pixels of the spec. -/
theorem C5_branches_agree_amended_witness :
    numpy_branch_pixel ⟨60, 255, 0, 255⟩ = ⟨60, 255, 0, 0⟩ ∧
    fallback_branch_pixel ⟨60, 255, 0, 255⟩ = ⟨0, 0, 0, 0⟩ ∧
    numpy_branch_pixel ⟨0, 128, 0, 255⟩ = ⟨0, 128, 0, 255⟩ := by
  have h := C5_branches_agree_amended [⟨60, 255, 0, 255⟩]
  refine ⟨(h.2.2 ⟨60, 255, 0, 255⟩).2 (by decide) |>.1.trans (by decide),
    (h.2.2 ⟨60, 255, 0, 255⟩).2 (by decide) |>.2,
    ((h.2.2 ⟨0, 128, 0, 255⟩).1 (by decide)).1⟩

/-- C6 counterexample: on a Linux host the vendor platform tag produced by
`_current_target` is `"linux64"`, which is not among the five tags the
claim lists (it lists `"linux-x64"` instead). -/
theorem C6_counterexample :
    current_target "linux" "x86_64" =
      .ok ⟨"linux", "x64", "linux64", "chromedriver"⟩ ∧
    ¬ ("linux64" ∈ ["mac-arm64", "mac-x64", "linux-x64", "win64", "win32"]) := by
  decide

/-- C6 amended: for every supported pair the returned `cft_platform` is one
of the five vendor tags `mac-arm64`, `mac-x64`, `linux64`, `win64`,
`win32`, and every operating-system value outside darwin/linux/windows
fails with the unsupported-OS `DriverInstallError`. -/
theorem C6_platform_tags_amended :
    (∀ system machine : String, ∀ t : PlatformTarget,
      current_target system machine = .ok t →
      t.cft_platform ∈ ["mac-arm64", "mac-x64", "linux64", "win64", "win32"]) ∧
    (∀ system machine : String,
      lowerStr system ≠ "darwin" → lowerStr system ≠ "linux" →
      lowerStr system ≠ "windows" →
      current_target system machine =
        .error (.driverInstall ("Unsupported OS: " ++ lowerStr system))) := by
  constructor
  · intro system machine t h
    rw [current_target] at h
    split_ifs at h <;> simp_all <;> subst h <;> simp
  · intro system machine h1 h2 h3
    rw [current_target]
    simp [h1, h2, h3]

/-- C6 amended witness at concrete hosts. -/
theorem C6_platform_tags_amended_witness :
    PlatformTarget.cft_platform ⟨"linux", "x64", "linux64", "chromedriver"⟩ ∈
      ["mac-arm64", "mac-x64", "linux64", "win64", "win32"] ∧
    current_target "FreeBSD" "amd64" =
      .error (.driverInstall "Unsupported OS: freebsd") := by
  refine ⟨C6_platform_tags_amended.1 "linux" "x86_64" _ (by decide), ?_⟩
  have h := C6_platform_tags_amended.2 "FreeBSD" "amd64"
    (by decide) (by decide) (by decide)
  simpa using h

/-- C1: whenever the browser binary resolves with a parsed major version,
no driver-path override applies, the platform target resolves, and the
existing-local-driver reuse check does not succeed, every error produced by
the guarded install attempt (metadata fetch failure, missing platform
entry, unsafe URL, missing or mismatched checksum, download exhaustion,
extraction failure, or post-install version mismatch — all of which are the
`.error` cases of `install_attempt`) is caught, and the call returns a
`DriverResolution` with no driver path and the used-external-auto-managed
flag (`used_selenium_manager`) set; the failure is not propagated. -/
theorem C1_install_failure_degrades
    (force_refresh : Bool) (env : ResolveEnv) (fs : InstallFS)
    (bin : String) (major : Nat) (target : PlatformTarget)
    (hbin : env.browserBinary = .ok bin)
    (hmajor : env.browserMajor = .ok major)
    (hoverride : env.overridePath = none ∨ env.overrideExists = false)
    (htarget : current_target env.system env.machine = .ok target)
    (hreuse : force_refresh = true ∨ fs.dest = none ∨
      ∃ m, destMajorProbe env fs = .ok m ∧ m ≠ major)
    (hfail : ∃ e, (install_attempt env major target
        (driverDestPath env.chromedriverDir target) fs).1 = .error e) :
    (resolve_driver force_refresh env fs).1 =
      .ok ⟨none, bin, major, true⟩ := by
  obtain ⟨e, he⟩ := hfail
  have hov : ¬ (env.overridePath.isSome ∧ env.overrideExists) := by
    rcases hoverride with h | h <;> simp [h]
  rcases hia : install_attempt env major target
      (driverDestPath env.chromedriverDir target) fs with ⟨res, fs2⟩
  rw [hia] at he
  simp only at he
  subst he
  rw [resolve_driver, hbin, hmajor]
  simp only [htarget, if_neg hov]
  rcases hreuse with hfr | hdest | ⟨m, hm, hne⟩
  · subst hfr
    simp [hia]
  · simp [hdest, hia]
  · by_cases hfr : force_refresh
    · simp [hfr, hia]
    · by_cases hds : fs.dest.isSome
      · simp only [hfr, hds, not_false_eq_true, and_self, if_true]
        rw [hm]
        simp [hne, hia]
      · simp [hds, hia]

/-- C1 witness: with the metadata fetch failing on a Linux host and no
local driver installed, resolution still returns the degraded
`DriverResolution`. -/
theorem C1_install_failure_degrades_witness :
    (resolve_driver false fetchFailEnv emptyFS).1 =
      .ok ⟨none, "/usr/bin/google-chrome", 120, true⟩ :=
  C1_install_failure_degrades false fetchFailEnv emptyFS
    "/usr/bin/google-chrome" 120 ⟨"linux", "x64", "linux64", "chromedriver"⟩
    rfl rfl (Or.inl rfl) (by decide) (Or.inr (Or.inl rfl))
    ⟨.driverInstall "Failed to fetch Chrome for Testing metadata: connection refused",
      by decide⟩

/-- C2: when the SHA-256 digest of the downloaded archive differs from the
expected checksum (hexdigest against the lowercased expectation, i.e. a
case-insensitive hex compare), `_download_and_install_for_major` fails with
a `DriverInstallError` and leaves the whole observable filesystem — in
particular the final destination path — exactly as it was; and in every
execution the destination is either unchanged (so absent if it was absent)
or holds the complete binary extracted from an archive whose digest equals
the advertised checksum, installed by the rename that also clears the
temporary sibling path. -/
theorem C2_checksum_atomicity :
    (∀ (env : InstallEnv) (major : Nat) (target : PlatformTarget)
        (destPath : String) (fs : InstallFS)
        (meta : CftMetadata) (ms : CftMilestone) (sel : CftDownloadItem)
        (u expected : String) (archive : Bin),
      env.fetchResult = .ok meta →
      meta.milestones.lookup (toString major) = some ms →
      ms.chromedriverDownloads.find?
        (fun item => item.platform = target.cft_platform) = some sel →
      sel.url = some u →
      cftAllowedUrlHead.data.isPrefixOf u.data = true →
      extract_sha256 sel = some expected →
      (download_with_retries env.attempts).1 = .ok archive →
      env.sha archive ≠ lowerStr expected →
      download_and_install_for_major env major target destPath fs =
        (.error (.driverInstall ("chromedriver archive checksum mismatch: expected=" ++
          lowerStr expected ++ " actual=" ++ env.sha archive)), fs)) ∧
    (∀ (env : InstallEnv) (major : Nat) (target : PlatformTarget)
        (destPath : String) (fs : InstallFS),
      (download_and_install_for_major env major target destPath fs).2.dest = fs.dest ∨
      (∃ (archive : Bin) (files : List (String × Bin)) (entry : String × Bin),
        (download_and_install_for_major env major target destPath fs).1 = .ok () ∧
        (download_with_retries env.attempts).1 = .ok archive ∧
        env.unzip archive = .ok files ∧
        files.find? (fun f => f.1 = target.executable_name) = some entry ∧
        (download_and_install_for_major env major target destPath fs).2.dest =
          some entry.2 ∧
        (download_and_install_for_major env major target destPath fs).2.destTmp =
          none ∧
        (∃ (meta : CftMetadata) (ms : CftMilestone) (sel : CftDownloadItem)
            (expected : String),
          env.fetchResult = .ok meta ∧
          meta.milestones.lookup (toString major) = some ms ∧
          ms.chromedriverDownloads.find?
            (fun item => item.platform = target.cft_platform) = some sel ∧
          extract_sha256 sel = some expected ∧
          env.sha archive = lowerStr expected))) := by
  constructor
  · intro env major target destPath fs meta ms sel u expected archive
      hfetch hlookup hfind hurl hpre hsha hdl hne
    rw [download_and_install_for_major, hfetch]
    simp only [hlookup, hfind, hurl, hpre, not_true_eq_false, if_false, hsha]
    simp only [hdl]
    rw [if_pos hne]
  · intro env major target destPath fs
    cases hfetch : env.fetchResult with
    | error e => left; rw [download_and_install_for_major, hfetch]
    | ok meta =>
    cases hlookup : meta.milestones.lookup (toString major) with
    | none => left; rw [download_and_install_for_major, hfetch]; simp [hlookup]
    | some ms =>
    cases hfind : ms.chromedriverDownloads.find?
        (fun item => item.platform = target.cft_platform) with
    | none => left; rw [download_and_install_for_major, hfetch]; simp [hlookup, hfind]
    | some sel =>
    cases hurl : sel.url with
    | none => left; rw [download_and_install_for_major, hfetch]; simp [hlookup, hfind, hurl]
    | some u =>
    by_cases hpre : cftAllowedUrlHead.data.isPrefixOf u.data
    case neg =>
      left; rw [download_and_install_for_major, hfetch]
      simp [hlookup, hfind, hurl, hpre]
    case pos =>
    cases hsha : extract_sha256 sel with
    | none =>
        left; rw [download_and_install_for_major, hfetch]
        simp [hlookup, hfind, hurl, hpre, hsha]
    | some expected =>
    cases hdl : (download_with_retries env.attempts).1 with
    | error e =>
        left; rw [download_and_install_for_major, hfetch]
        simp only [hlookup, hfind, hurl, hpre, not_true_eq_false, if_false, hsha]
        simp [hdl]
    | ok archive =>
    by_cases hne : env.sha archive ≠ lowerStr expected
    case pos =>
      left; rw [download_and_install_for_major, hfetch]
      simp only [hlookup, hfind, hurl, hpre, not_true_eq_false, if_false, hsha]
      simp only [hdl]
      rw [if_pos hne]
    case neg =>
    have heq : env.sha archive = lowerStr expected := not_not.mp hne
    cases hunzip : env.unzip archive with
    | error e =>
        left; rw [download_and_install_for_major, hfetch]
        simp only [hlookup, hfind, hurl, hpre, not_true_eq_false, if_false, hsha]
        simp only [hdl]
        rw [if_neg hne]
        simp [hunzip]
    | ok files =>
    cases hfindf : files.find? (fun f => f.1 = target.executable_name) with
    | none =>
        left; rw [download_and_install_for_major, hfetch]
        simp only [hlookup, hfind, hurl, hpre, not_true_eq_false, if_false, hsha]
        simp only [hdl]
        rw [if_neg hne]
        simp [hunzip, hfindf]
    | some entry =>
    right
    have hrun : download_and_install_for_major env major target destPath fs =
        (.ok (),
          { dest := some entry.2
            destTmp := none
            records := upsertRecord fs.records target.cft_platform
              ⟨destPath, major, u, expected⟩ }) := by
      rw [download_and_install_for_major, hfetch]
      simp only [hlookup, hfind, hurl, hpre, not_true_eq_false, if_false, hsha]
      simp only [hdl]
      rw [if_neg hne]
      simp [hunzip, hfindf]
    exact ⟨archive, files, entry, by rw [hrun], rfl, hunzip, hfindf,
      by rw [hrun], by rw [hrun],
      meta, ms, sel, expected, rfl, hlookup, hfind, hsha, heq⟩

/-- C2 witness: a concrete run over well-formed metadata whose archive
digest disagrees with the advertised checksum aborts with the mismatch
`DriverInstallError` and leaves the empty filesystem untouched (no file at
the destination). -/
theorem C2_checksum_atomicity_witness :
    download_and_install_for_major mismatchEnv 120
        ⟨"linux", "x64", "linux64", "chromedriver"⟩ "/app/driver" emptyFS =
      (.error (.driverInstall ("chromedriver archive checksum mismatch: expected=" ++
        lowerStr "aaaaaaaaaaaaaaaaaaaaaaaaaaaaaaaaaaaaaaaaaaaaaaaaaaaaaaaaaaaaaaaa" ++
        " actual=" ++ mismatchEnv.sha [1, 2, 3])), emptyFS) ∧
    emptyFS.dest = none := by
  refine ⟨?_, rfl⟩
  exact C2_checksum_atomicity.1 mismatchEnv 120
    ⟨"linux", "x64", "linux64", "chromedriver"⟩ "/app/driver" emptyFS
    ⟨[("120", ⟨[mismatchItem]⟩)]⟩ ⟨[mismatchItem]⟩ mismatchItem
    "https://storage.googleapis.com/chrome-for-testing-public/120.0.0.0/linux64/chromedriver-linux64.zip"
    "aaaaaaaaaaaaaaaaaaaaaaaaaaaaaaaaaaaaaaaaaaaaaaaaaaaaaaaaaaaaaaaa" [1, 2, 3]
    rfl (by decide) (by decide) (by decide) (by decide) (by decide) (by decide) (by decide)

/-- C9: the archive download makes up to 3 attempts; if all three fail it
raises a `DriverInstallError` carrying the last error, and the first
successful attempt returns the downloaded archive bytes (which the source
writes to the destination inside the attempt) and performs no further
attempts. -/
theorem C9_download_retries :
    (∀ (attempts : Nat → Except String Bin) (es : Nat → String),
      (∀ i, i < 3 → attempts i = .error (es i)) →
      download_with_retries attempts =
        (.error (.driverInstall (downloadFailMsg 3 (some (es 2)))), 3)) ∧
    (∀ (attempts : Nat → Except String Bin) (k : Nat) (archive : Bin),
      k < 3 → attempts k = .ok archive →
      (∀ i, i < k → ∃ e, attempts i = .error e) →
      download_with_retries attempts = (.ok archive, k + 1)) := by
  constructor
  · intro attempts es h
    have h0 := h 0 (by norm_num)
    have h1 := h 1 (by norm_num)
    have h2 := h 2 (by norm_num)
    simp [download_with_retries, downloadRetryLoop, h0, h1, h2]
  · intro attempts k archive hk hok hprev
    interval_cases k
    · simp [download_with_retries, downloadRetryLoop, hok]
    · obtain ⟨e0, he0⟩ := hprev 0 (by norm_num)
      simp [download_with_retries, downloadRetryLoop, he0, hok]
    · obtain ⟨e0, he0⟩ := hprev 0 (by norm_num)
      obtain ⟨e1, he1⟩ := hprev 1 (by norm_num)
      simp [download_with_retries, downloadRetryLoop, he0, he1, hok]

/-- C9 witness: concrete runs with all attempts failing and with the
second attempt succeeding. -/
theorem C9_download_retries_witness :
    download_with_retries (fun i => .error ("err" ++ toString i)) =
      (.error (.driverInstall (downloadFailMsg 3 (some "err2"))), 3) ∧
    download_with_retries
        (fun i => if i = 1 then .ok [7, 7] else .error "transient") =
      (.ok [7, 7], 2) := by
  constructor
  · exact C9_download_retries.1 (fun i => .error ("err" ++ toString i))
      (fun i => "err" ++ toString i) (fun i _ => rfl)
  · exact C9_download_retries.2 _ 1 [7, 7] (by norm_num) (by decide)
      (fun i hi => ⟨"transient", by interval_cases i; decide⟩)

/-- C7 counterexample: the URL `https://telegram.me/examplechan/42` is
accepted by the link validator (its host is the second known short-link
domain), its path segment after the host is `examplechan/42`, yet the
filename the code derives is not the sanitised path-plus-`.png` the claim
describes — the code only splits on `"t.me/"`, so for a `telegram.me` URL
it sanitises the entire URL instead. -/
theorem C7_counterexample :
    validate_tg_link "https://telegram.me/examplechan/42" =
      some "https://telegram.me/examplechan/42" ∧
    validatedPathAfterHost "https://telegram.me/examplechan/42".data =
      some "examplechan/42".data ∧
    capture_filename "https://telegram.me/examplechan/42".data ≠
      claimed_filename "examplechan/42".data ∧
    capture_filename "https://telegram.me/examplechan/42".data =
      "https___telegram_me_examplechan_42.png".data := by
  decide

/-- C7 amended: for every URL accepted by the link validator whose host is
`t.me` (channel of word characters, one or more numeric id segments), the
filename equals the URL path segment after the host with the embed query
suffix stripped if present, every non-alphanumeric character replaced by
`_` (`"post"` when empty) and `".png"` appended; for URLs with the other
accepted host, `telegram.me`, the code instead sanitises the whole URL
(see the counterexample). -/
theorem C7_filename_amended :
    ∀ (channel : List Char) (ids : List (List Char)),
      channel ≠ [] → (∀ c ∈ channel, wordChar c = true) →
      ids ≠ [] → (∀ seg ∈ ids, seg ≠ [] ∧ ∀ c ∈ seg, c.isDigit = true) →
      validate_tg_link
          (String.mk ("https://t.me/".data ++ (channel ++ idSegmentsPath ids))) =
        some (String.mk ("https://t.me/".data ++ (channel ++ idSegmentsPath ids))) ∧
      validatedPathAfterHost ("https://t.me/".data ++ (channel ++ idSegmentsPath ids)) =
        some (channel ++ idSegmentsPath ids) ∧
      capture_filename ("https://t.me/".data ++ (channel ++ idSegmentsPath ids)) =
        claimed_filename (channel ++ idSegmentsPath ids) := by
  intro channel ids hch hchw hids hsegs
  have hmem : ∀ c ∈ channel ++ idSegmentsPath ids,
      wordChar c = true ∨ c = '/' ∨ c.isDigit = true := by
    intro c hc
    rcases List.mem_append.mp hc with h | h
    · exact Or.inl (hchw c h)
    · rcases mem_idSegmentsPath (fun seg hs => (hsegs seg hs).2) c h with h | h
      · exact Or.inr (Or.inl h)
      · exact Or.inr (Or.inr h)
  have hdot : ('.') ∉ channel ++ idSegmentsPath ids := by
    intro hc
    rcases hmem _ hc with h | h | h <;> exact absurd h (by decide)
  have hq : ('?') ∉ channel ++ idSegmentsPath ids := by
    intro hc
    rcases hmem _ hc with h | h | h <;> exact absurd h (by decide)
  have hws : ∀ c ∈ "https://t.me/".data ++ (channel ++ idSegmentsPath ids),
      c.isWhitespace = false := by
    intro c hc
    rcases List.mem_append.mp hc with h | h
    · have hall : ∀ c ∈ "https://t.me/".data, c.isWhitespace = false := by decide
      exact hall c h
    · rcases hmem c h with h2 | h2 | h2
      · exact wordChar_not_whitespace h2
      · subst h2; decide
      · exact isDigit_not_whitespace h2
  have hpath : tgLinkPath (channel ++ idSegmentsPath ids) = true :=
    tgLinkPath_append hch hchw hids hsegs
  have hsplit13 : "https://t.me/".data = "https://".data ++ "t.me/".data := by decide
  have hdrop8 : ∀ Y : List Char, ("https://".data ++ Y).drop 8 = Y := by
    intro Y
    rw [show (8 : Nat) = "https://".data.length from by decide]
    exact List.drop_left _ _
  have hdrop5 : ∀ Y : List Char, ("t.me/".data ++ Y).drop 5 = Y := by
    intro Y
    rw [show (5 : Nat) = "t.me/".data.length from by decide]
    exact List.drop_left _ _
  have hmatch : tgLinkMatch
      ("https://t.me/".data ++ (channel ++ idSegmentsPath ids)) = true := by
    rw [tgLinkMatch, hsplit13, List.append_assoc]
    simp only [isPrefixOf_append_self, if_true, hdrop8, hdrop5]
    exact hpath
  have hstr : pyStrip ("https://t.me/".data ++ (channel ++ idSegmentsPath ids)) =
      "https://t.me/".data ++ (channel ++ idSegmentsPath ids) := pyStrip_eq_self hws
  refine ⟨?_, ?_, ?_⟩
  · rw [validate_tg_link]
    show (if tgLinkMatch (pyStrip ("https://t.me/".data ++ (channel ++ idSegmentsPath ids))) = true
      then some (if "https://".data.isPrefixOf ("https://t.me/".data ++ (channel ++ idSegmentsPath ids))
        then String.mk (pyStrip ("https://t.me/".data ++ (channel ++ idSegmentsPath ids)))
        else String.mk ("https://".data ++ pyStrip ("https://t.me/".data ++ (channel ++ idSegmentsPath ids))))
      else none) = some (String.mk ("https://t.me/".data ++ (channel ++ idSegmentsPath ids)))
    rw [hstr]
    simp only [hmatch, if_true]
    have h13 : (['h', 't', 't', 'p', 's', ':', '/', '/', 't', '.', 'm', 'e', '/'] : List Char) ++
        (channel ++ idSegmentsPath ids) =
        ['h', 't', 't', 'p', 's', ':', '/', '/'] ++
          (['t', '.', 'm', 'e', '/'] ++ (channel ++ idSegmentsPath ids)) := by simp
    rw [h13]
    simp only [isPrefixOf_append_self, if_true]
  · rw [validatedPathAfterHost, hsplit13, List.append_assoc]
    simp only [isPrefixOf_append_self, if_true, hdrop8, hdrop5]
  · have hafter : (pySplit "t.me/".data
        ("https://t.me/".data ++ (channel ++ idSegmentsPath ids))).getLastD [] =
        channel ++ idSegmentsPath ids := by
      rw [pySplit_tme hdot]
      rfl
    have hbase : (pySplit "?embed=1".data (channel ++ idSegmentsPath ids)).headD [] =
        channel ++ idSegmentsPath ids := by
      rw [pySplit_of_not_mem (show ('?') ∈ "?embed=1".data by decide) _ hq]
      rfl
    rw [capture_filename, claimed_filename, hafter, hbase]

/-- C7 amended witness: the concrete accepted URL
`https://t.me/examplechan/42` is validated and its filename is the
sanitised path `examplechan_42.png`. -/
theorem C7_filename_amended_witness :
    validate_tg_link
        (String.mk ("https://t.me/".data ++ ("examplechan".data ++ idSegmentsPath [['4', '2']]))) =
      some (String.mk ("https://t.me/".data ++ ("examplechan".data ++ idSegmentsPath [['4', '2']]))) ∧
    capture_filename ("https://t.me/".data ++ ("examplechan".data ++ idSegmentsPath [['4', '2']])) =
      claimed_filename ("examplechan".data ++ idSegmentsPath [['4', '2']]) ∧
    claimed_filename ("examplechan".data ++ idSegmentsPath [['4', '2']]) =
      "examplechan_42.png".data := by
  have h := C7_filename_amended "examplechan".data [['4', '2']]
    (by decide) (by decide) (by decide) (by decide)
  exact ⟨h.1, h.2.2, by decide⟩

/-- C8 counterexample: with a live session whose quit raises,
`_ensure_driver(force_refresh=True)` propagates the teardown error instead
of ignoring it, so resolution and creation of the new session do not
proceed — refuting the claim that any error raised during the teardown is
ignored. -/
theorem C8_counterexample :
    ensure_driver true quitFailEnv liveSessionSt =
      .error (.quitFailed "chrome not reachable") := by
  decide

/-- C8 amended: on a forced refresh with a live session the old session is
torn down first and the profile-directory cleanup ignores its own errors
(the refresh proceeds identically whether or not the directory removal
succeeded), after which resolution and creation of the new session proceed;
however an error raised by quitting the old session propagates and aborts
the refresh, so no new session is created in that case. -/
theorem C8_teardown_amended :
    (∀ (env : EnsureEnv) (st : BotState) (stale : SessionDriver),
      st.driver = some stale → env.quitResult = .ok () →
      ensure_driver true env st =
        ensure_boot env (cleanup_profile_from_driver env.rmtreeOk stale
          { st with driver := none, poolCreated := true })) ∧
    (∀ (env : EnsureEnv) (st : BotState) (stale : SessionDriver) (e : String),
      st.driver = some stale → env.quitResult = .error e →
      ensure_driver true env st = .error (.quitFailed e)) ∧
    (∀ (env : EnsureEnv) (st : BotState) (stale : SessionDriver)
        (res : DriverResolution) (d : SessionDriver),
      st.driver = some stale → env.quitResult = .ok () →
      env.resolveResult = .ok res → env.createResult = .ok d →
      ∃ st2, ensure_driver true env st = .ok st2 ∧
        st2.driver = some d ∧ st2.resolution = some res) := by
  have hmain : ∀ (env : EnsureEnv) (st : BotState) (stale : SessionDriver),
      st.driver = some stale → env.quitResult = .ok () →
      ensure_driver true env st =
        ensure_boot env (cleanup_profile_from_driver env.rmtreeOk stale
          { st with driver := none, poolCreated := true }) := by
    intro env st stale hdriver hquit
    rw [ensure_driver]
    simp [hdriver, hquit]
  refine ⟨hmain, fun env st stale e hdriver hquit => ?_, ?_⟩
  · rw [ensure_driver]
    simp [hdriver, hquit]
  · intro env st stale res d hdriver hquit hres hcreate
    rw [hmain env st stale hdriver hquit]
    simp only [ensure_boot, hres, hcreate]
    cases hp : d.profileDir with
    | none => exact ⟨_, rfl, rfl, rfl⟩
    | some p => exact ⟨_, rfl, rfl, rfl⟩

/-- C8 amended witness: concrete forced refresh with a successful quit
creates the new session; the same state with a failing quit propagates the
error. -/
theorem C8_teardown_amended_witness :
    (∃ st2, ensure_driver true quitOkEnv liveSessionSt = .ok st2 ∧
      st2.driver = some ⟨2, none⟩ ∧
      st2.resolution = some ⟨some "/app/driver", "/usr/bin/google-chrome", 120, false⟩) ∧
    ensure_driver true quitFailEnv liveSessionSt =
      .error (.quitFailed "chrome not reachable") := by
  refine ⟨C8_teardown_amended.2.2 quitOkEnv liveSessionSt ⟨1, some "/tmp/tsp-chrome-profile-1"⟩
    ⟨some "/app/driver", "/usr/bin/google-chrome", 120, false⟩ ⟨2, none⟩
    rfl rfl rfl rfl, ?_⟩
  exact C8_teardown_amended.2.1 quitFailEnv liveSessionSt
    ⟨1, some "/tmp/tsp-chrome-profile-1"⟩ "chrome not reachable" rfl rfl

/-- C10: the per-user rate limiter admits a request (returns 0) only while
recording the current monotonic time for that user; any later check for the
same user strictly less than the configured limit after the recorded time
returns the positive remaining wait and leaves the stored timestamp
unchanged (so a rejected request never extends the wait); and with the
limit configured to 0 every check returns 0. -/
theorem C10_rate_limit :
    (∀ (limit : ℚ) (lastTs : Int → Option ℚ) (userId : Int) (now : ℚ),
      0 < limit →
      (rate_limit_retry_after limit lastTs userId now).1 = 0 →
      (rate_limit_retry_after limit lastTs userId now).2 userId = some now) ∧
    (∀ (limit : ℚ) (lastTs : Int → Option ℚ) (userId : Int) (now t0 : ℚ),
      0 < limit → lastTs userId = some t0 → now - t0 < limit →
      rate_limit_retry_after limit lastTs userId now =
        (limit - (now - t0), lastTs) ∧ 0 < limit - (now - t0)) ∧
    (∀ (lastTs : Int → Option ℚ) (userId : Int) (now : ℚ),
      rate_limit_retry_after 0 lastTs userId now = (0, lastTs)) := by
  refine ⟨fun limit lastTs userId now hpos hzero => ?_,
    fun limit lastTs userId now t0 hpos hlast hlt => ?_,
    fun lastTs userId now => ?_⟩
  · rw [rate_limit_retry_after] at hzero ⊢
    rw [if_neg (not_le.mpr hpos)] at hzero ⊢
    cases hts : lastTs userId with
    | none => simp [hts]
    | some t0 =>
        simp only [hts] at hzero ⊢
        by_cases hr : 0 < limit - (now - t0)
        · rw [if_pos hr] at hzero
          exact absurd hzero (by simpa using ne_of_gt hr)
        · rw [if_neg hr]; simp
  · have hr : 0 < limit - (now - t0) := by linarith
    rw [rate_limit_retry_after, if_neg (not_le.mpr hpos), hlast]
    exact ⟨by simp only [if_pos hr], hr⟩
  · rw [rate_limit_retry_after, if_pos le_rfl]

/-- C10 witness: limit 5, user 7 admitted at time 10, checked again at
time 12: the second check returns the remaining 3 and keeps the stored
timestamp; checks with limit 0 return 0. -/
theorem C10_rate_limit_witness :
    (rate_limit_retry_after 5 (fun _ => none) 7 10).1 = 0 ∧
    (rate_limit_retry_after 5 (fun _ => none) 7 10).2 7 = some 10 ∧
    rate_limit_retry_after 5
        (fun u => if u = 7 then some 10 else none) 7 12 =
      (3, fun u => if u = 7 then some 10 else none) ∧
    rate_limit_retry_after 0 (fun _ => none) 7 10 = (0, fun _ => none) := by
  have hzero : (rate_limit_retry_after 5 (fun _ => none) 7 10).1 = 0 := by
    rw [rate_limit_retry_after]; norm_num
  have h1 := C10_rate_limit.1 5 (fun _ => none) 7 10 (by norm_num) hzero
  have h2 := C10_rate_limit.2.1 5 (fun u => if u = 7 then some 10 else none)
    7 12 10 (by norm_num) (by norm_num) (by norm_num)
  have h3 := C10_rate_limit.2.2 (fun _ => none) 7 10
  refine ⟨hzero, h1, ?_, h3⟩
  have : (5 : ℚ) - (12 - 10) = 3 := by norm_num
  rw [h2.1, this]

end TgSaveBot
